import Mathlib

/-!
Verification of the caching semantics of the CachedMethods library
(`CachedMethods/__init__.py`): four caching primitives (`cached_property`,
`cached_method`, `cached_args_method`, `class_cached_property`) and the
read-only mapping helper `FrozenDict`, shallowly embedded over an explicit
model of Python values, instance dictionaries and exceptions.
-/

namespace CachedMethodsSpec

/-- Python exceptions relevant to the library: `KeyError` (raised by dict
lookup on a missing key), `TypeError` (raised when hashing an unhashable
value), `AttributeError` (raised by `__dict__` access on objects without an
instance dictionary, and by a missing `__class_cache__` class attribute),
and an arbitrary user exception raised by a wrapped computation. -/
inductive PyErr where
  | keyError : PyErr
  | typeError : PyErr
  | attributeError : PyErr
  | userExc : String → PyErr
deriving DecidableEq

mutual
/-- Python runtime values, restricted to the types the library's
normalization chain inspects (`list`, `set`, `dict` and their frozen
counterparts `tuple`, `frozenset`, `FrozenDict`) plus opaque scalars.
Container payloads are in insertion order; a `vfrozendict ps` models a
`FrozenDict` object whose private dict `__d` holds the entries `ps`. -/
inductive Value where
  | vint : Int → Value
  | vstr : String → Value
  | vnone : Value
  | vlist : ValueList → Value
  | vtuple : ValueList → Value
  | vset : ValueList → Value
  | vfrozenset : ValueList → Value
  | vdict : ValuePairs → Value
  | vfrozendict : ValuePairs → Value
deriving DecidableEq

/-- A sequence of Python values (payload of `list` / `tuple` / `set` /
`frozenset`). -/
inductive ValueList where
  | nil : ValueList
  | cons : Value → ValueList → ValueList
deriving DecidableEq

/-- A sequence of key-value entries of a Python dict, in insertion order. -/
inductive ValuePairs where
  | nil : ValuePairs
  | cons : Value → Value → ValuePairs → ValuePairs
deriving DecidableEq
end

/-- Convert a Lean list of values into the payload type. -/
def ValueList.ofList : List Value → ValueList
  | [] => .nil
  | x :: xs => .cons x (ValueList.ofList xs)

/-- Convert a payload back into a Lean list of values. -/
def ValueList.toList : ValueList → List Value
  | .nil => []
  | .cons x xs => x :: ValueList.toList xs

/-- Convert a Lean list of entries into the dict payload type. -/
def ValuePairs.ofList : List (Value × Value) → ValuePairs
  | [] => .nil
  | (k, v) :: ps => .cons k v (ValuePairs.ofList ps)

/-- Convert a dict payload back into a Lean list of entries. -/
def ValuePairs.toList : ValuePairs → List (Value × Value)
  | .nil => []
  | .cons k v ps => (k, v) :: ValuePairs.toList ps

mutual
/-- Python hashability: scalars and `None` are hashable; a `tuple` is
hashable iff all its elements are, likewise a `frozenset`; `list`, `set`
and `dict` are unhashable, and `FrozenDict` is unhashable because
`collections.abc.Mapping` sets `__hash__ = None`. -/
def Value.hashable : Value → Bool
  | .vint _ => true
  | .vstr _ => true
  | .vnone => true
  | .vlist _ => false
  | .vtuple xs => xs.allHashable
  | .vset _ => false
  | .vfrozenset xs => xs.allHashable
  | .vdict _ => false
  | .vfrozendict _ => false

/-- All elements of a payload are hashable. -/
def ValueList.allHashable : ValueList → Bool
  | .nil => true
  | .cons x xs => x.hashable && xs.allHashable
end

/-- Lookup in a Python dictionary represented as an association list in
insertion order: `d[k]` returns the entry whose key equals `k`, `none`
standing for a raised `KeyError`. -/
def assocGet {K V : Type} [DecidableEq K] : List (K × V) → K → Option V
  | [], _ => none
  | p :: ps, k => if p.1 = k then some p.2 else assocGet ps k

/-- Assignment `d[k] = v` in a Python dictionary: an existing key keeps its
position and gets the new value; a new key is appended at the end
(insertion order). -/
def assocInsert {K V : Type} [DecidableEq K] : List (K × V) → K → V → List (K × V)
  | [], k, v => [(k, v)]
  | p :: ps, k, v => if p.1 = k then (k, v) :: ps else p :: assocInsert ps k v

/-- `del d[k]` in a Python dictionary: removes the entry for `k` (keys are
unique in a genuine dict, so removing the first occurrence is exact). -/
def assocDelete {K V : Type} [DecidableEq K] : List (K × V) → K → List (K × V)
  | [], _ => []
  | p :: ps, k => if p.1 = k then ps else p :: assocDelete ps k

/-- `dict(pairs)`: build a Python dictionary from key-value pairs by
successive assignment, so duplicate keys resolve last-write-wins with each
key keeping its first-occurrence position. -/
def dictFromPairs : List (Value × Value) → List (Value × Value) :=
  List.foldl (fun d p => assocInsert d p.1 p.2) []

/-- The normalization chain that every caching primitive applies to a
computed result before storing it (repeated verbatim in the source at
`cached_property.__get__`, `cached_method.wrapper`,
`cached_args_method.wrapper` twice, and `class_cached_property.__get__`
twice): `isinstance(value, list)` makes a `tuple(value)` of the same
elements, `isinstance(value, set)` a `frozenset(value)`,
`isinstance(value, dict)` a `FrozenDict(value)` (whose `__init__` copies
the entries via `dict(value)`); anything else is kept as is. -/
def pynormalize : Value → Value
  | .vlist xs => .vtuple xs
  | .vset xs => .vfrozenset xs
  | .vdict kvs => .vfrozendict (ValuePairs.ofList (dictFromPairs kvs.toList))
  | v => v

/-! ## FrozenDict (`CachedMethods/__init__.py` lines 23-42)

`FrozenDict` keeps the dict built by `__init__` in the private slot
`self.__d` and exposes only `__iter__`, `__len__`, `__getitem__` and
`__repr__`, none of which writes `self.__d`. We model the object by its
private dict (a `List (Value × Value)` with unique keys, insertion
ordered). -/

/-- `FrozenDict.__init__(*pairs)`: `self.__d = dict(pairs)`. -/
def FrozenDict.init (pairs : List (Value × Value)) : List (Value × Value) :=
  dictFromPairs pairs

/-- `FrozenDict.__getitem__`: `self.__d[key]`, raising `KeyError` when the
key is absent. -/
def FrozenDict.getitem (d : List (Value × Value)) (k : Value) : Except PyErr Value :=
  match assocGet d k with
  | some v => .ok v
  | none => .error .keyError

/-- `FrozenDict.__len__`: `len(self.__d)`. -/
def FrozenDict.len (d : List (Value × Value)) : Nat := d.length

/-- `FrozenDict.__iter__`: `iter(self.__d)`, i.e. the keys in insertion
order. -/
def FrozenDict.iterKeys (d : List (Value × Value)) : List Value :=
  d.map Prod.fst

/-- The operations exposed by `FrozenDict` after construction. -/
inductive FDOp where
  | iterOp : FDOp
  | lenOp : FDOp
  | getitemOp : Value → FDOp
  | reprOp : FDOp

/-- Result of one `FrozenDict` operation; `reprR` carries the data the
debug representation `repr(self.__d)` is computed from. -/
inductive FDResult where
  | keysR : List Value → FDResult
  | lenR : Nat → FDResult
  | itemR : Except PyErr Value → FDResult
  | reprR : List (Value × Value) → FDResult

/-- Run one exposed `FrozenDict` operation: each method only reads
`self.__d`, so the private dict after the call is returned alongside the
result. -/
def FrozenDict.run (d : List (Value × Value)) : FDOp → List (Value × Value) × FDResult
  | .iterOp => (d, .keysR (FrozenDict.iterKeys d))
  | .lenOp => (d, .lenR (FrozenDict.len d))
  | .getitemOp k => (d, .itemR (FrozenDict.getitem d k))
  | .reprOp => (d, .reprR d)

/-! ## Objects and the caching wrappers -/

/-- A Python object as the caching wrappers see it: its instance dictionary
`__dict__`, or no instance dictionary at all (`hasDict = false`, e.g. a
slotted object), in which case any `self.__dict__` access raises
`AttributeError`. -/
structure Obj where
  hasDict : Bool
  dict : List (String × Value)
deriving DecidableEq

/-- The per-object slot name computed by `cached_method`:
`f'__cached_method_{func.__name__}'`. -/
def cached_method_slot (funcName : String) : String :=
  "__cached_method_" ++ funcName

/-- The per-object slot name computed by `cached_args_method`:
`f'__cached_args_method_{func.__name__}'`. -/
def cached_args_method_slot (funcName : String) : String :=
  "__cached_args_method_" ++ funcName

/-- The attribute name computed in `cached_property.__init__` and
`class_cached_property.__init__`: a name starting with `__` but not ending
with `__` is prefixed by `_` and the owning class name (second-to-last
component of `__qualname__`), emulating private-name mangling. -/
def descriptor_slot (funcName qualname : String) : String :=
  if funcName.startsWith "__" && !funcName.endsWith "__" then
    let parts := qualname.splitOn "."
    "_" ++ (parts.getD (parts.length - 2) "") ++ funcName
  else funcName

/-- `cached_method(func).wrapper(self)` (lines 80-94): try to return
`self.__dict__[name]`; on `KeyError` call `func(self)`, normalize, store
into `self.__dict__[name]` and return. The wrapped computation may raise
(`Except.error`); the result is the object after the call, the returned
value or propagated exception, and whether `func` was invoked. -/
def cached_method_call (func : Obj → Except PyErr Value) (name : String) (o : Obj) :
    Obj × Except PyErr Value × Bool :=
  if o.hasDict then
    match assocGet o.dict name with
    | some v => (o, .ok v, false)
    | none =>
        match func o with
        | .error e => (o, .error e, true)
        | .ok v0 =>
            let value := pynormalize v0
            ({ o with dict := assocInsert o.dict name value }, .ok value, true)
  else (o, .error .attributeError, false)

/-- `cached_args_method(func).wrapper(self, *args)` (lines 103-128): try
`cache = self.__dict__[name]`; on `KeyError` compute `func(self, *args)`,
normalize, then store `self.__dict__[name] = {args: value}` (hashing `args`
here, after the computation, raises `TypeError` for unhashable arguments).
When the cache exists, `cache[args]` first hashes `args` (raising
`TypeError` before any computation for unhashable arguments), returns the
stored value on a hit, and on `KeyError` computes, normalizes and stores
`cache[args] = value`. The final catch-all models a non-dict value in the
slot, which only external writes could produce. -/
def cached_args_method_call (func : Obj → List Value → Except PyErr Value)
    (name : String) (o : Obj) (args : List Value) :
    Obj × Except PyErr Value × Bool :=
  let key : Value := .vtuple (ValueList.ofList args)
  if o.hasDict then
    match assocGet o.dict name with
    | none =>
        match func o args with
        | .error e => (o, .error e, true)
        | .ok v0 =>
            let value := pynormalize v0
            if key.hashable then
              let d1 := assocInsert o.dict name (.vdict (ValuePairs.ofList [(key, value)]))
              ({ o with dict := d1 }, .ok value, true)
            else (o, .error .typeError, true)
    | some (.vdict cacheP) =>
        let cache := cacheP.toList
        if key.hashable then
          match assocGet cache key with
          | some v => (o, .ok v, false)
          | none =>
              match func o args with
              | .error e => (o, .error e, true)
              | .ok v0 =>
                  let value := pynormalize v0
                  let d1 := assocInsert o.dict name
                    (.vdict (ValuePairs.ofList (assocInsert cache key value)))
                  ({ o with dict := d1 }, .ok value, true)
        else (o, .error .typeError, false)
    | some _ => (o, .error .typeError, false)
  else (o, .error .attributeError, false)

/-- `cached_property.__get__(obj, cls)` for an instance access (lines
60-71): always call `self.func(obj)`, normalize, store the value into
`obj.__dict__[self.name]` and return it. On a slotted object the
`obj.__dict__` store raises `AttributeError` (not caught here). -/
def cached_property_get (func : Obj → Except PyErr Value) (name : String) (o : Obj) :
    Obj × Except PyErr Value × Bool :=
  match func o with
  | .error e => (o, .error e, true)
  | .ok v0 =>
      let value := pynormalize v0
      if o.hasDict then
        ({ o with dict := assocInsert o.dict name value }, .ok value, true)
      else (o, .error .attributeError, true)

/-- Reading attribute `name` on an instance whose class declares
`cached_property` under that name: Python's attribute lookup finds a value
stored in the instance `__dict__` first (the stored value shadows the
non-data descriptor); otherwise the descriptor's `__get__` runs. -/
def instance_getattr (func : Obj → Except PyErr Value) (name : String) (o : Obj) :
    Obj × Except PyErr Value × Bool :=
  if o.hasDict then
    match assocGet o.dict name with
    | some v => (o, .ok v, false)
    | none => cached_property_get func name o
  else cached_property_get func name o

/-- The best-effort mirroring at the end of `class_cached_property.__get__`
(lines 180-183): `obj.__dict__[self.name] = value`, with `AttributeError`
silently ignored (`except AttributeError: pass`). -/
def mirror (o : Obj) (name : String) (value : Value) : Obj :=
  if o.hasDict then { o with dict := assocInsert o.dict name value } else o

/-- `class_cached_property.__get__(obj, cls)` for an instance access (lines
153-184). The shared `__class_cache__` dict (one dict inherited by every
subclass) is the state `cc`, mapping a class (identified by `clsId`) to its
per-class dict of attribute-name to value; `hasClassCache` says whether
`cls.__class_cache__` resolves at all (if not, `AttributeError` propagates
before anything else). On `KeyError` for the exact class, compute,
normalize and store `{self.name: value}` under the class; else look the
name up in the class's dict, computing and storing on `KeyError`. Finally
mirror the value into `obj.__dict__` best-effort. Returns the shared cache
after the call, the object after the call, the result, and whether `func`
was invoked. -/
def class_cached_property_get (func : Obj → Except PyErr Value) (name : String)
    (hasClassCache : Bool) (clsId : Nat)
    (cc : List (Nat × List (String × Value))) (o : Obj) :
    List (Nat × List (String × Value)) × Obj × Except PyErr Value × Bool :=
  if hasClassCache then
    match assocGet cc clsId with
    | none =>
        match func o with
        | .error e => (cc, o, .error e, true)
        | .ok v0 =>
            let value := pynormalize v0
            (assocInsert cc clsId [(name, value)], mirror o name value, .ok value, true)
    | some class_cache =>
        match assocGet class_cache name with
        | some value => (cc, mirror o name value, .ok value, false)
        | none =>
            match func o with
            | .error e => (cc, o, .error e, true)
            | .ok v0 =>
                let value := pynormalize v0
                (assocInsert cc clsId (assocInsert class_cache name value),
                 mirror o name value, .ok value, true)
  else (cc, o, .error .attributeError, false)

/-! ## Specification-side helpers (used only to state properties) -/

/-- Specification helper for last-write-wins: the value carried by the last
pair whose key is `k`, if any. -/
def lastWins : List (Value × Value) → Value → Option Value
  | [], _ => none
  | p :: ps, k =>
      match lastWins ps k with
      | some v => some v
      | none => if p.1 = k then some p.2 else none

/-- Specification helper: the keys of a list in order of first occurrence,
without duplicates. -/
def firstOccKeys (ks : List Value) : List Value :=
  ks.foldl (fun acc k => if k ∈ acc then acc else acc ++ [k]) []

/-! ## Association-list lemmas -/

theorem assocGet_insert {K V : Type} [DecidableEq K] (d : List (K × V)) (k k' : K) (v : V) :
    assocGet (assocInsert d k v) k' = if k = k' then some v else assocGet d k' := by
  induction d with
  | nil => simp [assocInsert, assocGet]
  | cons p ps ih =>
      rcases p with ⟨pk, pv⟩
      by_cases h : pk = k
      · subst h
        by_cases hk : pk = k'
        · subst hk; simp [assocInsert, assocGet]
        · simp [assocInsert, assocGet, hk]
      · by_cases hk : pk = k'
        · subst hk
          have : ¬ k = pk := fun hh => h hh.symm
          simp [assocInsert, assocGet, h, this]
        · simp [assocInsert, assocGet, h, hk, ih]

theorem assocGet_insert_self {K V : Type} [DecidableEq K] (d : List (K × V)) (k : K) (v : V) :
    assocGet (assocInsert d k v) k = some v := by
  simp [assocGet_insert]

theorem assocGet_insert_ne {K V : Type} [DecidableEq K] (d : List (K × V)) (k k' : K) (v : V)
    (h : ¬ k = k') : assocGet (assocInsert d k v) k' = assocGet d k' := by
  simp [assocGet_insert, h]

theorem assocGet_append {K V : Type} [DecidableEq K] (d e : List (K × V)) (k : K) :
    assocGet (d ++ e) k =
      match assocGet d k with
      | some v => some v
      | none => assocGet e k := by
  induction d with
  | nil => simp [assocGet]
  | cons p ps ih =>
      by_cases h : p.1 = k
      · simp [assocGet, h]
      · simp [assocGet, h, ih]

theorem assocInsert_fresh {K V : Type} [DecidableEq K] (d : List (K × V)) (k : K) (v : V)
    (h : assocGet d k = none) : assocInsert d k v = d ++ [(k, v)] := by
  induction d with
  | nil => simp [assocInsert]
  | cons p ps ih =>
      by_cases hk : p.1 = k
      · simp [assocGet, hk] at h
      · simp [assocGet, hk] at h
        simp [assocInsert, hk, ih h]

theorem assocDelete_insert_fresh {K V : Type} [DecidableEq K] (d : List (K × V)) (k : K)
    (v : V) (h : assocGet d k = none) : assocDelete (assocInsert d k v) k = d := by
  induction d with
  | nil => simp [assocInsert, assocDelete]
  | cons p ps ih =>
      by_cases hk : p.1 = k
      · simp [assocGet, hk] at h
      · simp [assocGet, hk] at h
        simp [assocInsert, hk, assocDelete, ih h]

theorem assocGet_eq_none_iff {K V : Type} [DecidableEq K] (d : List (K × V)) (k : K) :
    assocGet d k = none ↔ k ∉ d.map Prod.fst := by
  induction d with
  | nil => simp [assocGet]
  | cons p ps ih =>
      by_cases h : p.1 = k
      · simp [assocGet, h]
      · have hne : ¬ k = p.1 := fun hh => h hh.symm
        simp [assocGet, h, ih, hne]

theorem keys_assocInsert {K V : Type} [DecidableEq K] (d : List (K × V)) (k : K) (v : V) :
    (assocInsert d k v).map Prod.fst =
      if k ∈ d.map Prod.fst then d.map Prod.fst else d.map Prod.fst ++ [k] := by
  induction d with
  | nil => simp [assocInsert]
  | cons p ps ih =>
      by_cases h : p.1 = k
      · simp [assocInsert, h]
      · have hne : ¬ k = p.1 := fun hh => h hh.symm
        by_cases hm : k ∈ ps.map Prod.fst
        · simp [assocInsert, h, ih, hm, hne]
        · simp [assocInsert, h, ih, hm, hne]

/-! ## `dictFromPairs` lemmas -/

theorem assocGet_dictFold (ps : List (Value × Value)) :
    ∀ (d : List (Value × Value)) (k : Value),
      assocGet (List.foldl (fun d p => assocInsert d p.1 p.2) d ps) k =
        match lastWins ps k with
        | some v => some v
        | none => assocGet d k := by
  induction ps with
  | nil => intro d k; simp [lastWins]
  | cons p ps ih =>
      intro d k
      rw [List.foldl_cons, ih]
      cases h : lastWins ps k with
      | some v => simp [lastWins, h]
      | none =>
          by_cases hk : p.1 = k
          · simp [lastWins, h, hk, assocGet_insert]
          · simp [lastWins, h, hk, assocGet_insert]

theorem dictFromPairs_get (ps : List (Value × Value)) (k : Value) :
    assocGet (dictFromPairs ps) k = lastWins ps k := by
  rw [dictFromPairs, assocGet_dictFold]
  cases h : lastWins ps k <;> simp [assocGet]

theorem keys_dictFold (ps : List (Value × Value)) :
    ∀ d : List (Value × Value),
      (List.foldl (fun d p => assocInsert d p.1 p.2) d ps).map Prod.fst =
        List.foldl (fun acc k => if k ∈ acc then acc else acc ++ [k])
          (d.map Prod.fst) (ps.map Prod.fst) := by
  induction ps with
  | nil => intro d; simp
  | cons p ps ih =>
      intro d
      rw [List.foldl_cons, ih, List.map_cons, List.foldl_cons, keys_assocInsert]

theorem dictFromPairs_keys (ps : List (Value × Value)) :
    (dictFromPairs ps).map Prod.fst = firstOccKeys (ps.map Prod.fst) := by
  rw [dictFromPairs, keys_dictFold, firstOccKeys]
  rfl

theorem mem_foldAccKeys (ks : List Value) :
    ∀ (acc : List Value) (k : Value),
      (k ∈ List.foldl (fun acc k => if k ∈ acc then acc else acc ++ [k]) acc ks) ↔
        k ∈ acc ∨ k ∈ ks := by
  induction ks with
  | nil => intro acc k; simp
  | cons x xs ih =>
      intro acc k
      rw [List.foldl_cons]
      by_cases hx : x ∈ acc
      · rw [if_pos hx, ih]
        constructor
        · rintro (h | h)
          · exact Or.inl h
          · exact Or.inr (List.mem_cons_of_mem _ h)
        · rintro (h | h)
          · exact Or.inl h
          · rcases List.mem_cons.mp h with h | h
            · exact Or.inl (h ▸ hx)
            · exact Or.inr h
      · rw [if_neg hx, ih]
        constructor
        · rintro (h | h)
          · rcases List.mem_append.mp h with h | h
            · exact Or.inl h
            · exact Or.inr (List.mem_cons.mpr (Or.inl (List.mem_singleton.mp h)))
          · exact Or.inr (List.mem_cons_of_mem _ h)
        · rintro (h | h)
          · exact Or.inl (List.mem_append.mpr (Or.inl h))
          · rcases List.mem_cons.mp h with h | h
            · exact Or.inl (List.mem_append.mpr (Or.inr (List.mem_singleton.mpr h)))
            · exact Or.inr h

theorem nodup_foldAccKeys (ks : List Value) :
    ∀ acc : List Value, acc.Nodup →
      (List.foldl (fun acc k => if k ∈ acc then acc else acc ++ [k]) acc ks).Nodup := by
  induction ks with
  | nil => intro acc h; simpa using h
  | cons x xs ih =>
      intro acc h
      rw [List.foldl_cons]
      by_cases hx : x ∈ acc
      · rw [if_pos hx]; exact ih acc h
      · rw [if_neg hx]
        refine ih _ ?_
        simp [List.nodup_append, h, hx]

theorem mem_firstOccKeys (ks : List Value) (k : Value) :
    k ∈ firstOccKeys ks ↔ k ∈ ks := by
  rw [firstOccKeys, mem_foldAccKeys]
  simp

theorem nodup_firstOccKeys (ks : List Value) : (firstOccKeys ks).Nodup :=
  nodup_foldAccKeys ks [] List.nodup_nil

theorem length_firstOccKeys (ks : List Value) :
    (firstOccKeys ks).length = ks.toFinset.card := by
  have hfin : (firstOccKeys ks).toFinset = ks.toFinset := by
    ext a
    simp [List.mem_toFinset, mem_firstOccKeys]
  rw [← List.toFinset_card_of_nodup (nodup_firstOccKeys ks), hfin]

theorem dictFold_fresh (ps : List (Value × Value)) :
    ∀ d : List (Value × Value),
      (∀ k, k ∈ ps.map Prod.fst → assocGet d k = none) → (ps.map Prod.fst).Nodup →
      List.foldl (fun d p => assocInsert d p.1 p.2) d ps = d ++ ps := by
  induction ps with
  | nil => intro d _ _; simp
  | cons p ps ih =>
      intro d hfresh hnd
      rw [List.map_cons, List.nodup_cons] at hnd
      rw [List.foldl_cons,
        assocInsert_fresh d p.1 p.2 (hfresh p.1 (by simp)), ih]
      · simp
      · intro k hk
        rw [assocGet_append]
        rw [hfresh k (by simp [hk])]
        have : ¬ p.1 = k := fun hh => hnd.1 (hh ▸ hk)
        simp [assocGet, this]
      · exact hnd.2

theorem dictFromPairs_of_nodup (ps : List (Value × Value))
    (h : (ps.map Prod.fst).Nodup) : dictFromPairs ps = ps := by
  rw [dictFromPairs, dictFold_fresh ps [] (fun k _ => rfl) h]
  simp

/-! ## Round trips between payloads and Lean lists -/

theorem ValuePairs.toList_ofList : ∀ ps : List (Value × Value),
    (ValuePairs.ofList ps).toList = ps := by
  intro ps
  induction ps with
  | nil => rfl
  | cons p ps ih => rcases p with ⟨k, v⟩; simp [ValuePairs.ofList, ValuePairs.toList, ih]

theorem ValuePairs.ofList_toList : ∀ p : ValuePairs, ValuePairs.ofList p.toList = p
  | .nil => rfl
  | .cons k v ps => by
      simp [ValuePairs.ofList, ValuePairs.toList, ValuePairs.ofList_toList ps]

/-! ## Claims -/

/-- C1: for an object whose `cached_method` slot is not yet populated,
calling the decorated method twice (with no deletion of the slot in
between) returns the identical result both times and executes the
underlying computation exactly once: the first call invokes it and stores
the normalized result, the second call reads the stored slot without
invoking the function. -/
theorem cached_method_idempotent (func : Obj → Except PyErr Value) (fn : String) (o : Obj)
    (hdict : o.hasDict = true)
    (hfresh : assocGet o.dict (cached_method_slot fn) = none)
    (v0 : Value) (hok : func o = .ok v0) :
    (cached_method_call func (cached_method_slot fn) o).2.2 = true ∧
    (cached_method_call func (cached_method_slot fn)
        (cached_method_call func (cached_method_slot fn) o).1).2.2 = false ∧
    (cached_method_call func (cached_method_slot fn) o).2.1 = .ok (pynormalize v0) ∧
    (cached_method_call func (cached_method_slot fn)
        (cached_method_call func (cached_method_slot fn) o).1).2.1 =
      (cached_method_call func (cached_method_slot fn) o).2.1 := by
  simp [cached_method_call, hdict, hfresh, hok, assocGet_insert_self]

theorem cached_method_idempotent_witness :
    (cached_method_call (fun _ => .ok (.vint 7)) (cached_method_slot "f") ⟨true, []⟩).2.2 = true ∧
    (cached_method_call (fun _ => .ok (.vint 7)) (cached_method_slot "f")
        (cached_method_call (fun _ => .ok (.vint 7)) (cached_method_slot "f")
          ⟨true, []⟩).1).2.2 = false ∧
    (cached_method_call (fun _ => .ok (.vint 7)) (cached_method_slot "f") ⟨true, []⟩).2.1 =
      .ok (pynormalize (.vint 7)) ∧
    (cached_method_call (fun _ => .ok (.vint 7)) (cached_method_slot "f")
        (cached_method_call (fun _ => .ok (.vint 7)) (cached_method_slot "f")
          ⟨true, []⟩).1).2.1 =
      (cached_method_call (fun _ => .ok (.vint 7)) (cached_method_slot "f") ⟨true, []⟩).2.1 :=
  cached_method_idempotent (fun _ => .ok (.vint 7)) "f" ⟨true, []⟩ rfl rfl (.vint 7) rfl

/-- C2: for a class `A` (identified by `a`) carrying a
`class_cached_property` and a subclass `B` (identified by `b`) sharing the
same `__class_cache__` dict, a read through an instance of `A` and then a
read through an instance of `B` each invoke the computation once and store
independent entries keyed by the exact class: `B`'s read neither reads
from nor writes to `A`'s entry. -/
theorem class_cached_property_subclass_isolation
    (func : Obj → Except PyErr Value) (name : String) (a b : Nat) (hab : ¬ a = b)
    (cc : List (Nat × List (String × Value))) (oa ob : Obj)
    (ha : assocGet cc a = none) (hb : assocGet cc b = none)
    (va vb : Value) (hva : func oa = .ok va) (hvb : func ob = .ok vb) :
    (class_cached_property_get func name true a cc oa).2.2.2 = true ∧
    (class_cached_property_get func name true b
        (class_cached_property_get func name true a cc oa).1 ob).2.2.2 = true ∧
    (class_cached_property_get func name true a cc oa).2.2.1 = .ok (pynormalize va) ∧
    (class_cached_property_get func name true b
        (class_cached_property_get func name true a cc oa).1 ob).2.2.1 =
      .ok (pynormalize vb) ∧
    assocGet (class_cached_property_get func name true b
        (class_cached_property_get func name true a cc oa).1 ob).1 a =
      some [(name, pynormalize va)] ∧
    assocGet (class_cached_property_get func name true b
        (class_cached_property_get func name true a cc oa).1 ob).1 b =
      some [(name, pynormalize vb)] ∧
    assocGet (class_cached_property_get func name true b
        (class_cached_property_get func name true a cc oa).1 ob).1 a =
      assocGet (class_cached_property_get func name true a cc oa).1 a := by
  have hba : ¬ b = a := fun h => hab h.symm
  have h1 : class_cached_property_get func name true a cc oa =
      (assocInsert cc a [(name, pynormalize va)], mirror oa name (pynormalize va),
       .ok (pynormalize va), true) := by
    simp [class_cached_property_get, ha, hva]
  have hb1 : assocGet (assocInsert cc a [(name, pynormalize va)]) b = none := by
    rw [assocGet_insert_ne _ _ _ _ hab]; exact hb
  have h2 : class_cached_property_get func name true b
      (assocInsert cc a [(name, pynormalize va)]) ob =
      (assocInsert (assocInsert cc a [(name, pynormalize va)]) b [(name, pynormalize vb)],
       mirror ob name (pynormalize vb), .ok (pynormalize vb), true) := by
    simp [class_cached_property_get, hb1, hvb]
  rw [h1]
  simp only [h2]
  refine ⟨trivial, trivial, trivial, trivial, ?_, ?_, ?_⟩
  · rw [assocGet_insert_ne _ _ _ _ hba, assocGet_insert_self]
  · rw [assocGet_insert_self]
  · rw [assocGet_insert_ne _ _ _ _ hba]

theorem class_cached_property_subclass_isolation_witness :
    (class_cached_property_get (fun _ => .ok (.vint 1)) "attr" true 0 [] ⟨true, []⟩).2.2.2
        = true ∧
    (class_cached_property_get (fun _ => .ok (.vint 1)) "attr" true 1
        (class_cached_property_get (fun _ => .ok (.vint 1)) "attr" true 0 []
          ⟨true, []⟩).1 ⟨true, []⟩).2.2.2 = true ∧
    (class_cached_property_get (fun _ => .ok (.vint 1)) "attr" true 0 [] ⟨true, []⟩).2.2.1
        = .ok (pynormalize (.vint 1)) ∧
    (class_cached_property_get (fun _ => .ok (.vint 1)) "attr" true 1
        (class_cached_property_get (fun _ => .ok (.vint 1)) "attr" true 0 []
          ⟨true, []⟩).1 ⟨true, []⟩).2.2.1 = .ok (pynormalize (.vint 1)) ∧
    assocGet (class_cached_property_get (fun _ => .ok (.vint 1)) "attr" true 1
        (class_cached_property_get (fun _ => .ok (.vint 1)) "attr" true 0 []
          ⟨true, []⟩).1 ⟨true, []⟩).1 0 = some [("attr", pynormalize (.vint 1))] ∧
    assocGet (class_cached_property_get (fun _ => .ok (.vint 1)) "attr" true 1
        (class_cached_property_get (fun _ => .ok (.vint 1)) "attr" true 0 []
          ⟨true, []⟩).1 ⟨true, []⟩).1 1 = some [("attr", pynormalize (.vint 1))] ∧
    assocGet (class_cached_property_get (fun _ => .ok (.vint 1)) "attr" true 1
        (class_cached_property_get (fun _ => .ok (.vint 1)) "attr" true 0 []
          ⟨true, []⟩).1 ⟨true, []⟩).1 0 =
      assocGet (class_cached_property_get (fun _ => .ok (.vint 1)) "attr" true 0 []
          ⟨true, []⟩).1 0 :=
  class_cached_property_subclass_isolation (fun _ => .ok (.vint 1)) "attr" 0 1
    (by decide) [] ⟨true, []⟩ ⟨true, []⟩ rfl rfl (.vint 1) (.vint 1) rfl rfl

/-- C6: for an object whose `cached_property` attribute slot is initially
empty, reading the property stores the computed value; deleting the
instance attribute and reading again invokes the computation anew and
stores a fresh result, restoring lazy recomputation. -/
theorem cached_property_delete_recompute (func : Obj → Except PyErr Value) (name : String)
    (o : Obj) (hdict : o.hasDict = true)
    (hfresh : assocGet o.dict name = none)
    (v : Value) (hok : func o = .ok v) :
    (instance_getattr func name o).2.2 = true ∧
    (instance_getattr func name o).2.1 = .ok (pynormalize v) ∧
    assocGet (instance_getattr func name o).1.dict name = some (pynormalize v) ∧
    (instance_getattr func name
        ⟨(instance_getattr func name o).1.hasDict,
         assocDelete (instance_getattr func name o).1.dict name⟩).2.2 = true ∧
    (instance_getattr func name
        ⟨(instance_getattr func name o).1.hasDict,
         assocDelete (instance_getattr func name o).1.dict name⟩).2.1 =
      .ok (pynormalize v) ∧
    assocGet (instance_getattr func name
        ⟨(instance_getattr func name o).1.hasDict,
         assocDelete (instance_getattr func name o).1.dict name⟩).1.dict name =
      some (pynormalize v) := by
  have h1 : instance_getattr func name o =
      ({ o with dict := assocInsert o.dict name (pynormalize v) },
       .ok (pynormalize v), true) := by
    simp [instance_getattr, cached_property_get, hdict, hfresh, hok]
  have ho2 : (⟨(instance_getattr func name o).1.hasDict,
      assocDelete (instance_getattr func name o).1.dict name⟩ : Obj) = o := by
    rw [h1]
    simp [assocDelete_insert_fresh _ _ _ hfresh]
  refine ⟨?_, ?_, ?_, ?_, ?_, ?_⟩
  · rw [h1]
  · rw [h1]
  · rw [h1]; simp [assocGet_insert_self]
  · rw [ho2, h1]
  · rw [ho2, h1]
  · rw [ho2, h1]; simp [assocGet_insert_self]

theorem cached_property_delete_recompute_witness :
    (instance_getattr (fun _ => .ok (.vint 9)) "p" ⟨true, []⟩).2.2 = true ∧
    (instance_getattr (fun _ => .ok (.vint 9)) "p" ⟨true, []⟩).2.1 =
      .ok (pynormalize (.vint 9)) ∧
    assocGet (instance_getattr (fun _ => .ok (.vint 9)) "p" ⟨true, []⟩).1.dict "p" =
      some (pynormalize (.vint 9)) ∧
    (instance_getattr (fun _ => .ok (.vint 9)) "p"
        ⟨(instance_getattr (fun _ => .ok (.vint 9)) "p" ⟨true, []⟩).1.hasDict,
         assocDelete (instance_getattr (fun _ => .ok (.vint 9)) "p"
           ⟨true, []⟩).1.dict "p"⟩).2.2 = true ∧
    (instance_getattr (fun _ => .ok (.vint 9)) "p"
        ⟨(instance_getattr (fun _ => .ok (.vint 9)) "p" ⟨true, []⟩).1.hasDict,
         assocDelete (instance_getattr (fun _ => .ok (.vint 9)) "p"
           ⟨true, []⟩).1.dict "p"⟩).2.1 = .ok (pynormalize (.vint 9)) ∧
    assocGet (instance_getattr (fun _ => .ok (.vint 9)) "p"
        ⟨(instance_getattr (fun _ => .ok (.vint 9)) "p" ⟨true, []⟩).1.hasDict,
         assocDelete (instance_getattr (fun _ => .ok (.vint 9)) "p"
           ⟨true, []⟩).1.dict "p"⟩).1.dict "p" = some (pynormalize (.vint 9)) :=
  cached_property_delete_recompute (fun _ => .ok (.vint 9)) "p" ⟨true, []⟩ rfl rfl
    (.vint 9) rfl

/-- C8: reading a `class_cached_property` through an instance whose class
does not provide the `__class_cache__` storage attribute fails with
`AttributeError`, uncaught and unconverted, before the computation is ever
invoked and without touching any state. -/
theorem class_cached_property_missing_class_cache
    (func : Obj → Except PyErr Value) (name : String) (clsId : Nat)
    (cc : List (Nat × List (String × Value))) (o : Obj) :
    class_cached_property_get func name false clsId cc o =
      (cc, o, .error .attributeError, false) := by
  simp [class_cached_property_get]

/-- C3 counterexample: on the very first call of a `cached_args_method`
with an unhashable argument (here the empty list), with no per-object
cache mapping yet, the underlying computation IS invoked (third component
`true`): the `TypeError` is only raised afterwards, when
`self.__dict__[name] = {args: value}` hashes the argument tuple. This
refutes the claim that the failure happens before the computation is
invoked "including the very first call". -/
theorem cached_args_method_unhashable_first_call_invokes :
    cached_args_method_call (fun _ _ => .ok (.vint 5)) (cached_args_method_slot "f")
      ⟨true, []⟩ [.vlist .nil] = (⟨true, []⟩, .error .typeError, true) := by
  rfl

/-- C3 (amended): a call with an unhashable positional argument fails with
`TypeError` and the computation result is never cached; when the
per-object cache mapping already exists the hashing error is raised at
cache-lookup time, before the computation is invoked, but on the very
first call (cache mapping absent) the computation is invoked once and the
`TypeError` is raised when the result is stored, leaving the object
unchanged, without a cache mapping. -/
theorem cached_args_method_unhashable
    (func : Obj → List Value → Except PyErr Value) (fn : String) (o : Obj)
    (args : List Value) (hdict : o.hasDict = true)
    (hunh : (Value.vtuple (ValueList.ofList args)).hashable = false) :
    (∀ cacheP, assocGet o.dict (cached_args_method_slot fn) = some (.vdict cacheP) →
        cached_args_method_call func (cached_args_method_slot fn) o args =
          (o, .error .typeError, false)) ∧
    (∀ v0, assocGet o.dict (cached_args_method_slot fn) = none →
        func o args = .ok v0 →
        cached_args_method_call func (cached_args_method_slot fn) o args =
          (o, .error .typeError, true)) := by
  constructor
  · intro cacheP hslot
    simp [cached_args_method_call, hdict, hslot, hunh]
  · intro v0 hslot hok
    simp [cached_args_method_call, hdict, hslot, hok, hunh]

theorem cached_args_method_unhashable_witness :
    cached_args_method_call (fun _ _ => .ok (.vint 5)) (cached_args_method_slot "g")
        ⟨true, [(cached_args_method_slot "g", .vdict .nil)]⟩ [.vlist .nil] =
      (⟨true, [(cached_args_method_slot "g", .vdict .nil)]⟩, .error .typeError, false) ∧
    cached_args_method_call (fun _ _ => .ok (.vint 5)) (cached_args_method_slot "g")
        ⟨true, []⟩ [.vlist .nil] = (⟨true, []⟩, .error .typeError, true) :=
  ⟨(cached_args_method_unhashable (fun _ _ => .ok (.vint 5)) "g"
      ⟨true, [(cached_args_method_slot "g", .vdict .nil)]⟩ [.vlist .nil] rfl rfl).1
      .nil (by simp [assocGet]),
   (cached_args_method_unhashable (fun _ _ => .ok (.vint 5)) "g"
      ⟨true, []⟩ [.vlist .nil] rfl rfl).2 (.vint 5) rfl rfl⟩

/-- C4: with a fresh per-object cache, calling an argument-keyed cached
method with arguments `a`, then `b`, then `a` again (hashable, with
distinct key tuples) executes the computation exactly twice: the first two
calls invoke and store independent entries in the same per-object mapping,
and the repeated call returns the stored value without recomputation and
without touching the object. -/
theorem cached_args_method_discrimination
    (func : Obj → List Value → Except PyErr Value) (fn : String) (o : Obj)
    (a b : List Value) (va vb : Value)
    (hdict : o.hasDict = true)
    (hfresh : assocGet o.dict (cached_args_method_slot fn) = none)
    (hha : (Value.vtuple (ValueList.ofList a)).hashable = true)
    (hhb : (Value.vtuple (ValueList.ofList b)).hashable = true)
    (hne : ¬ Value.vtuple (ValueList.ofList a) = Value.vtuple (ValueList.ofList b))
    (h1 : func o a = .ok va)
    (h2 : func (cached_args_method_call func (cached_args_method_slot fn) o a).1 b =
      .ok vb) :
    (cached_args_method_call func (cached_args_method_slot fn) o a).2.2 = true ∧
    (cached_args_method_call func (cached_args_method_slot fn) o a).2.1 =
      .ok (pynormalize va) ∧
    (cached_args_method_call func (cached_args_method_slot fn)
        (cached_args_method_call func (cached_args_method_slot fn) o a).1 b).2.2 = true ∧
    (cached_args_method_call func (cached_args_method_slot fn)
        (cached_args_method_call func (cached_args_method_slot fn) o a).1 b).2.1 =
      .ok (pynormalize vb) ∧
    assocGet (cached_args_method_call func (cached_args_method_slot fn)
        (cached_args_method_call func (cached_args_method_slot fn) o a).1 b).1.dict
        (cached_args_method_slot fn) =
      some (.vdict (ValuePairs.ofList
        [(Value.vtuple (ValueList.ofList a), pynormalize va),
         (Value.vtuple (ValueList.ofList b), pynormalize vb)])) ∧
    cached_args_method_call func (cached_args_method_slot fn)
        (cached_args_method_call func (cached_args_method_slot fn)
          (cached_args_method_call func (cached_args_method_slot fn) o a).1 b).1 a =
      ((cached_args_method_call func (cached_args_method_slot fn)
          (cached_args_method_call func (cached_args_method_slot fn) o a).1 b).1,
       .ok (pynormalize va), false) := by
  have hr1 : cached_args_method_call func (cached_args_method_slot fn) o a =
      (Obj.mk o.hasDict (assocInsert o.dict (cached_args_method_slot fn)
          (.vdict (ValuePairs.ofList
            [(Value.vtuple (ValueList.ofList a), pynormalize va)]))),
       .ok (pynormalize va), true) := by
    simp [cached_args_method_call, hdict, hfresh, h1, hha]
  rw [hr1] at h2
  simp only [hdict] at h2
  have hgb : assocGet [(Value.vtuple (ValueList.ofList a), pynormalize va)]
      (Value.vtuple (ValueList.ofList b)) = (none : Option Value) := by
    simp [assocGet, hne]
  have hr2 : cached_args_method_call func (cached_args_method_slot fn)
      (cached_args_method_call func (cached_args_method_slot fn) o a).1 b =
      (Obj.mk o.hasDict (assocInsert
          (assocInsert o.dict (cached_args_method_slot fn)
            (.vdict (ValuePairs.ofList
              [(Value.vtuple (ValueList.ofList a), pynormalize va)])))
          (cached_args_method_slot fn)
          (.vdict (ValuePairs.ofList
            [(Value.vtuple (ValueList.ofList a), pynormalize va),
             (Value.vtuple (ValueList.ofList b), pynormalize vb)]))),
       .ok (pynormalize vb), true) := by
    rw [hr1]
    simp [cached_args_method_call, hdict, assocGet_insert_self,
      ValuePairs.toList_ofList, hhb, hgb, h2, assocInsert, hne]
  refine ⟨?_, ?_, ?_, ?_, ?_, ?_⟩
  · rw [hr1]
  · rw [hr1]
  · rw [hr2]
  · rw [hr2]
  · rw [hr2]; simp [assocGet_insert_self]
  · rw [hr2]
    simp [cached_args_method_call, hdict, assocGet_insert_self,
      ValuePairs.toList_ofList, hha, assocGet]

theorem cached_args_method_discrimination_witness :
    (cached_args_method_call (fun _ _ => .ok (.vint 0)) (cached_args_method_slot "h")
        ⟨true, []⟩ [.vint 1]).2.2 = true ∧
    (cached_args_method_call (fun _ _ => .ok (.vint 0)) (cached_args_method_slot "h")
        ⟨true, []⟩ [.vint 1]).2.1 = .ok (pynormalize (.vint 0)) ∧
    (cached_args_method_call (fun _ _ => .ok (.vint 0)) (cached_args_method_slot "h")
        (cached_args_method_call (fun _ _ => .ok (.vint 0)) (cached_args_method_slot "h")
          ⟨true, []⟩ [.vint 1]).1 [.vint 2]).2.2 = true ∧
    (cached_args_method_call (fun _ _ => .ok (.vint 0)) (cached_args_method_slot "h")
        (cached_args_method_call (fun _ _ => .ok (.vint 0)) (cached_args_method_slot "h")
          ⟨true, []⟩ [.vint 1]).1 [.vint 2]).2.1 = .ok (pynormalize (.vint 0)) ∧
    assocGet (cached_args_method_call (fun _ _ => .ok (.vint 0))
        (cached_args_method_slot "h")
        (cached_args_method_call (fun _ _ => .ok (.vint 0)) (cached_args_method_slot "h")
          ⟨true, []⟩ [.vint 1]).1 [.vint 2]).1.dict (cached_args_method_slot "h") =
      some (.vdict (ValuePairs.ofList
        [(Value.vtuple (ValueList.ofList [.vint 1]), pynormalize (.vint 0)),
         (Value.vtuple (ValueList.ofList [.vint 2]), pynormalize (.vint 0))])) ∧
    cached_args_method_call (fun _ _ => .ok (.vint 0)) (cached_args_method_slot "h")
        (cached_args_method_call (fun _ _ => .ok (.vint 0)) (cached_args_method_slot "h")
          (cached_args_method_call (fun _ _ => .ok (.vint 0))
            (cached_args_method_slot "h") ⟨true, []⟩ [.vint 1]).1 [.vint 2]).1 [.vint 1] =
      ((cached_args_method_call (fun _ _ => .ok (.vint 0)) (cached_args_method_slot "h")
          (cached_args_method_call (fun _ _ => .ok (.vint 0))
            (cached_args_method_slot "h") ⟨true, []⟩ [.vint 1]).1 [.vint 2]).1,
       .ok (pynormalize (.vint 0)), false) :=
  cached_args_method_discrimination (fun _ _ => .ok (.vint 0)) "h" ⟨true, []⟩
    [.vint 1] [.vint 2] (.vint 0) (.vint 0) rfl rfl rfl rfl (by decide) rfl rfl

/-- C5: a failure of the wrapped computation propagates unchanged out of
every caching primitive, no cache slot or entry is written (object, its
dict and the shared class cache are exactly as before), and the next
access invokes the computation again. The `class_cached_property` case is
covered on both computing paths (class not yet keyed, and class keyed but
attribute name absent). -/
theorem computation_errors_propagate
    (e : PyErr) (func : Obj → Except PyErr Value)
    (funcA : Obj → List Value → Except PyErr Value)
    (name : String) (o : Obj) (args : List Value)
    (clsId : Nat) (cc cc2 : List (Nat × List (String × Value)))
    (m : List (String × Value))
    (hdict : o.hasDict = true) (hfresh : assocGet o.dict name = none)
    (herr : func o = .error e) (herrA : funcA o args = .error e)
    (hcc : assocGet cc clsId = none)
    (hcc2 : assocGet cc2 clsId = some m) (hm : assocGet m name = none) :
    cached_method_call func name o = (o, .error e, true) ∧
    cached_args_method_call funcA name o args = (o, .error e, true) ∧
    instance_getattr func name o = (o, .error e, true) ∧
    class_cached_property_get func name true clsId cc o = (cc, o, .error e, true) ∧
    class_cached_property_get func name true clsId cc2 o = (cc2, o, .error e, true) ∧
    (cached_method_call func name (cached_method_call func name o).1).2.2 = true ∧
    (cached_args_method_call funcA name
        (cached_args_method_call funcA name o args).1 args).2.2 = true ∧
    (instance_getattr func name (instance_getattr func name o).1).2.2 = true ∧
    (class_cached_property_get func name true clsId
        (class_cached_property_get func name true clsId cc o).1
        (class_cached_property_get func name true clsId cc o).2.1).2.2.2 = true := by
  have e1 : cached_method_call func name o = (o, .error e, true) := by
    simp [cached_method_call, hdict, hfresh, herr]
  have e2 : cached_args_method_call funcA name o args = (o, .error e, true) := by
    simp [cached_args_method_call, hdict, hfresh, herrA]
  have e3 : instance_getattr func name o = (o, .error e, true) := by
    simp [instance_getattr, cached_property_get, hdict, hfresh, herr]
  have e4 : class_cached_property_get func name true clsId cc o =
      (cc, o, .error e, true) := by
    simp [class_cached_property_get, hcc, herr]
  have e5 : class_cached_property_get func name true clsId cc2 o =
      (cc2, o, .error e, true) := by
    simp [class_cached_property_get, hcc2, hm, herr]
  refine ⟨e1, e2, e3, e4, e5, ?_, ?_, ?_, ?_⟩
  · rw [e1]; rw [e1]
  · rw [e2]; rw [e2]
  · rw [e3]; rw [e3]
  · rw [e4]; rw [e4]

theorem computation_errors_propagate_witness :
    cached_method_call (fun _ => .error (.userExc "boom")) "s" ⟨true, []⟩ =
      (⟨true, []⟩, .error (.userExc "boom"), true) ∧
    cached_args_method_call (fun _ _ => .error (.userExc "boom")) "s" ⟨true, []⟩
        [.vint 1] = (⟨true, []⟩, .error (.userExc "boom"), true) ∧
    instance_getattr (fun _ => .error (.userExc "boom")) "s" ⟨true, []⟩ =
      (⟨true, []⟩, .error (.userExc "boom"), true) ∧
    class_cached_property_get (fun _ => .error (.userExc "boom")) "s" true 0 []
        ⟨true, []⟩ = ([], ⟨true, []⟩, .error (.userExc "boom"), true) ∧
    class_cached_property_get (fun _ => .error (.userExc "boom")) "s" true 0
        [(0, [])] ⟨true, []⟩ = ([(0, [])], ⟨true, []⟩, .error (.userExc "boom"), true) ∧
    (cached_method_call (fun _ => .error (.userExc "boom")) "s"
        (cached_method_call (fun _ => .error (.userExc "boom")) "s"
          ⟨true, []⟩).1).2.2 = true ∧
    (cached_args_method_call (fun _ _ => .error (.userExc "boom")) "s"
        (cached_args_method_call (fun _ _ => .error (.userExc "boom")) "s" ⟨true, []⟩
          [.vint 1]).1 [.vint 1]).2.2 = true ∧
    (instance_getattr (fun _ => .error (.userExc "boom")) "s"
        (instance_getattr (fun _ => .error (.userExc "boom")) "s" ⟨true, []⟩).1).2.2 =
      true ∧
    (class_cached_property_get (fun _ => .error (.userExc "boom")) "s" true 0
        (class_cached_property_get (fun _ => .error (.userExc "boom")) "s" true 0 []
          ⟨true, []⟩).1
        (class_cached_property_get (fun _ => .error (.userExc "boom")) "s" true 0 []
          ⟨true, []⟩).2.1).2.2.2 = true :=
  computation_errors_propagate (.userExc "boom") (fun _ => .error (.userExc "boom"))
    (fun _ _ => .error (.userExc "boom")) "s" ⟨true, []⟩ [.vint 1] 0 [] [(0, [])] []
    rfl rfl rfl rfl rfl rfl rfl

/-- C9: reading a `class_cached_property` through an object without
instance attribute storage (`hasDict = false`) succeeds: the mirroring
into the instance is silently skipped, the object is returned unchanged,
and the value is delivered with no error reaching the caller — on every
path (class not yet keyed, cache hit, and attribute-name miss). -/
theorem class_cached_property_slotted_mirror_skipped
    (func : Obj → Except PyErr Value) (name : String) (clsId : Nat)
    (cc : List (Nat × List (String × Value))) (o : Obj)
    (hnd : o.hasDict = false) (v0 : Value) (hok : func o = .ok v0) :
    (∃ w, (class_cached_property_get func name true clsId cc o).2.2.1 = .ok w) ∧
    (class_cached_property_get func name true clsId cc o).2.1 = o := by
  cases hc : assocGet cc clsId with
  | none =>
      refine ⟨⟨pynormalize v0, ?_⟩, ?_⟩ <;>
        simp [class_cached_property_get, hc, hok, mirror, hnd]
  | some m =>
      cases hm : assocGet m name with
      | some v =>
          refine ⟨⟨v, ?_⟩, ?_⟩ <;>
            simp [class_cached_property_get, hc, hm, mirror, hnd]
      | none =>
          refine ⟨⟨pynormalize v0, ?_⟩, ?_⟩ <;>
            simp [class_cached_property_get, hc, hm, hok, mirror, hnd]

theorem class_cached_property_slotted_mirror_skipped_witness :
    (∃ w, (class_cached_property_get (fun _ => .ok (.vint 4)) "q" true 0 []
        ⟨false, []⟩).2.2.1 = .ok w) ∧
    (class_cached_property_get (fun _ => .ok (.vint 4)) "q" true 0 []
        ⟨false, []⟩).2.1 = ⟨false, []⟩ :=
  class_cached_property_slotted_mirror_skipped (fun _ => .ok (.vint 4)) "q" 0 []
    ⟨false, []⟩ rfl (.vint 4) rfl

/-- C7: for a `FrozenDict` built from key-value pairs, lookup of a present
key returns its value with duplicate construction keys resolved
last-write-wins; lookup of an absent key raises `KeyError`; the size is
the number of distinct keys; iteration yields the keys in insertion
(first-occurrence) order; and every operation of the exposed surface
(`__iter__`, `__len__`, `__getitem__`, `__repr__`) leaves the underlying
dict unchanged — no mutating operation exists. -/
theorem frozen_dict_ops (pairs : List (Value × Value)) (k k' : Value) :
    (∀ v, lastWins pairs k = some v →
        FrozenDict.getitem (FrozenDict.init pairs) k = .ok v) ∧
    (lastWins pairs k' = none →
        FrozenDict.getitem (FrozenDict.init pairs) k' = .error .keyError) ∧
    FrozenDict.len (FrozenDict.init pairs) = (pairs.map Prod.fst).toFinset.card ∧
    FrozenDict.iterKeys (FrozenDict.init pairs) = firstOccKeys (pairs.map Prod.fst) ∧
    (∀ op, (FrozenDict.run (FrozenDict.init pairs) op).1 = FrozenDict.init pairs) := by
  refine ⟨?_, ?_, ?_, ?_, ?_⟩
  · intro v hv
    simp [FrozenDict.getitem, FrozenDict.init, dictFromPairs_get, hv]
  · intro hv
    simp [FrozenDict.getitem, FrozenDict.init, dictFromPairs_get, hv]
  · rw [FrozenDict.len, FrozenDict.init]
    calc (dictFromPairs pairs).length
        = ((dictFromPairs pairs).map Prod.fst).length := by simp
      _ = (firstOccKeys (pairs.map Prod.fst)).length := by rw [dictFromPairs_keys]
      _ = (pairs.map Prod.fst).toFinset.card := length_firstOccKeys _
  · rw [FrozenDict.iterKeys, FrozenDict.init, dictFromPairs_keys]
  · intro op; cases op <;> rfl

theorem frozen_dict_ops_witness :
    FrozenDict.getitem (FrozenDict.init
        [(.vstr "a", .vint 1), (.vstr "b", .vint 2), (.vstr "a", .vint 3)]) (.vstr "a") =
      .ok (.vint 3) ∧
    FrozenDict.getitem (FrozenDict.init
        [(.vstr "a", .vint 1), (.vstr "b", .vint 2), (.vstr "a", .vint 3)]) (.vstr "c") =
      .error .keyError ∧
    FrozenDict.len (FrozenDict.init
        [(.vstr "a", .vint 1), (.vstr "b", .vint 2), (.vstr "a", .vint 3)]) =
      (([(.vstr "a", .vint 1), (.vstr "b", .vint 2), (.vstr "a", .vint 3)] :
          List (Value × Value)).map Prod.fst).toFinset.card ∧
    FrozenDict.iterKeys (FrozenDict.init
        [(.vstr "a", .vint 1), (.vstr "b", .vint 2), (.vstr "a", .vint 3)]) =
      firstOccKeys (([(.vstr "a", .vint 1), (.vstr "b", .vint 2), (.vstr "a", .vint 3)] :
          List (Value × Value)).map Prod.fst) ∧
    (FrozenDict.run (FrozenDict.init
        [(.vstr "a", .vint 1), (.vstr "b", .vint 2), (.vstr "a", .vint 3)]) .lenOp).1 =
      FrozenDict.init [(.vstr "a", .vint 1), (.vstr "b", .vint 2), (.vstr "a", .vint 3)] :=
  ⟨(frozen_dict_ops [(.vstr "a", .vint 1), (.vstr "b", .vint 2), (.vstr "a", .vint 3)]
      (.vstr "a") (.vstr "c")).1 (.vint 3) rfl,
   (frozen_dict_ops [(.vstr "a", .vint 1), (.vstr "b", .vint 2), (.vstr "a", .vint 3)]
      (.vstr "a") (.vstr "c")).2.1 rfl,
   (frozen_dict_ops [(.vstr "a", .vint 1), (.vstr "b", .vint 2), (.vstr "a", .vint 3)]
      (.vstr "a") (.vstr "c")).2.2.1,
   (frozen_dict_ops [(.vstr "a", .vint 1), (.vstr "b", .vint 2), (.vstr "a", .vint 3)]
      (.vstr "a") (.vstr "c")).2.2.2.1,
   (frozen_dict_ops [(.vstr "a", .vint 1), (.vstr "b", .vint 2), (.vstr "a", .vint 3)]
      (.vstr "a") (.vstr "c")).2.2.2.2 .lenOp⟩

/-- C10: normalization is unconditional in all four caching primitives and
not configurable: a computed `list` is stored and returned as a `tuple` of
the same elements, a `set` as a `frozenset` of the same elements, a `dict`
as a `FrozenDict` of the same entries, and every other result type is
stored unchanged; each wrapper, on a fresh compute, stores and returns
exactly `pynormalize` of the computed value. -/
theorem normalization_unconditional :
    (∀ xs, pynormalize (.vlist xs) = .vtuple xs) ∧
    (∀ xs, pynormalize (.vset xs) = .vfrozenset xs) ∧
    (∀ kvs, pynormalize (.vdict kvs) =
        .vfrozendict (ValuePairs.ofList (dictFromPairs kvs.toList))) ∧
    (∀ kvs, (kvs.toList.map Prod.fst).Nodup →
        pynormalize (.vdict kvs) = .vfrozendict kvs) ∧
    (∀ n, pynormalize (.vint n) = .vint n) ∧
    (∀ s, pynormalize (.vstr s) = .vstr s) ∧
    pynormalize .vnone = .vnone ∧
    (∀ xs, pynormalize (.vtuple xs) = .vtuple xs) ∧
    (∀ xs, pynormalize (.vfrozenset xs) = .vfrozenset xs) ∧
    (∀ ps, pynormalize (.vfrozendict ps) = .vfrozendict ps) ∧
    (∀ (func : Obj → Except PyErr Value) (name : String) (o : Obj) (v0 : Value),
        o.hasDict = true → assocGet o.dict name = none → func o = .ok v0 →
        cached_method_call func name o =
          (Obj.mk o.hasDict (assocInsert o.dict name (pynormalize v0)),
           .ok (pynormalize v0), true)) ∧
    (∀ (func : Obj → List Value → Except PyErr Value) (name : String) (o : Obj)
        (args : List Value) (v0 : Value),
        o.hasDict = true → assocGet o.dict name = none → func o args = .ok v0 →
        (Value.vtuple (ValueList.ofList args)).hashable = true →
        cached_args_method_call func name o args =
          (Obj.mk o.hasDict (assocInsert o.dict name (.vdict (ValuePairs.ofList
              [(Value.vtuple (ValueList.ofList args), pynormalize v0)]))),
           .ok (pynormalize v0), true)) ∧
    (∀ (func : Obj → Except PyErr Value) (name : String) (o : Obj) (v0 : Value),
        o.hasDict = true → assocGet o.dict name = none → func o = .ok v0 →
        instance_getattr func name o =
          (Obj.mk o.hasDict (assocInsert o.dict name (pynormalize v0)),
           .ok (pynormalize v0), true)) ∧
    (∀ (func : Obj → Except PyErr Value) (name : String) (clsId : Nat)
        (cc : List (Nat × List (String × Value))) (o : Obj) (v0 : Value),
        assocGet cc clsId = none → func o = .ok v0 →
        class_cached_property_get func name true clsId cc o =
          (assocInsert cc clsId [(name, pynormalize v0)],
           mirror o name (pynormalize v0), .ok (pynormalize v0), true)) := by
  refine ⟨fun xs => rfl, fun xs => rfl, fun kvs => rfl, ?_, fun n => rfl, fun s => rfl,
    rfl, fun xs => rfl, fun xs => rfl, fun ps => rfl, ?_, ?_, ?_, ?_⟩
  · intro kvs h
    rw [pynormalize, dictFromPairs_of_nodup kvs.toList h, ValuePairs.ofList_toList]
  · intro func name o v0 hdict hfresh hok
    simp [cached_method_call, hdict, hfresh, hok]
  · intro func name o args v0 hdict hfresh hok hh
    simp [cached_args_method_call, hdict, hfresh, hok, hh]
  · intro func name o v0 hdict hfresh hok
    simp [instance_getattr, cached_property_get, hdict, hfresh, hok]
  · intro func name clsId cc o v0 hcc hok
    simp [class_cached_property_get, hcc, hok]

theorem normalization_unconditional_witness :
    pynormalize (.vlist (.cons (.vint 1) .nil)) = .vtuple (.cons (.vint 1) .nil) ∧
    pynormalize (.vset (.cons (.vint 1) .nil)) = .vfrozenset (.cons (.vint 1) .nil) ∧
    pynormalize (.vdict (.cons (.vint 1) (.vint 2) .nil)) =
      .vfrozendict (.cons (.vint 1) (.vint 2) .nil) ∧
    pynormalize (.vint 3) = .vint 3 ∧
    cached_method_call (fun _ => .ok (.vlist (.cons (.vint 1) .nil))) "w" ⟨true, []⟩ =
      (Obj.mk true (assocInsert [] "w" (pynormalize (.vlist (.cons (.vint 1) .nil)))),
       .ok (pynormalize (.vlist (.cons (.vint 1) .nil))), true) ∧
    cached_args_method_call (fun _ _ => .ok (.vset (.cons (.vint 1) .nil))) "w"
        ⟨true, []⟩ [] =
      (Obj.mk true (assocInsert [] "w" (.vdict (ValuePairs.ofList
          [(Value.vtuple (ValueList.ofList []),
            pynormalize (.vset (.cons (.vint 1) .nil)))]))),
       .ok (pynormalize (.vset (.cons (.vint 1) .nil))), true) ∧
    instance_getattr (fun _ => .ok (.vdict (.cons (.vint 1) (.vint 2) .nil))) "w"
        ⟨true, []⟩ =
      (Obj.mk true (assocInsert [] "w"
          (pynormalize (.vdict (.cons (.vint 1) (.vint 2) .nil)))),
       .ok (pynormalize (.vdict (.cons (.vint 1) (.vint 2) .nil))), true) ∧
    class_cached_property_get (fun _ => .ok (.vint 5)) "w" true 0 [] ⟨true, []⟩ =
      (assocInsert [] 0 [("w", pynormalize (.vint 5))],
       mirror ⟨true, []⟩ "w" (pynormalize (.vint 5)), .ok (pynormalize (.vint 5)), true) :=
  ⟨normalization_unconditional.1 (.cons (.vint 1) .nil),
   normalization_unconditional.2.1 (.cons (.vint 1) .nil),
   normalization_unconditional.2.2.2.1 (.cons (.vint 1) (.vint 2) .nil) (by decide),
   normalization_unconditional.2.2.2.2.1 3,
   normalization_unconditional.2.2.2.2.2.2.2.2.2.2.1
     (fun _ => .ok (.vlist (.cons (.vint 1) .nil))) "w" ⟨true, []⟩
     (.vlist (.cons (.vint 1) .nil)) rfl rfl rfl,
   normalization_unconditional.2.2.2.2.2.2.2.2.2.2.2.1
     (fun _ _ => .ok (.vset (.cons (.vint 1) .nil))) "w" ⟨true, []⟩ []
     (.vset (.cons (.vint 1) .nil)) rfl rfl rfl rfl,
   normalization_unconditional.2.2.2.2.2.2.2.2.2.2.2.2.1
     (fun _ => .ok (.vdict (.cons (.vint 1) (.vint 2) .nil))) "w" ⟨true, []⟩
     (.vdict (.cons (.vint 1) (.vint 2) .nil)) rfl rfl rfl,
   normalization_unconditional.2.2.2.2.2.2.2.2.2.2.2.2.2
     (fun _ => .ok (.vint 5)) "w" 0 [] ⟨true, []⟩ (.vint 5) rfl rfl⟩

end CachedMethodsSpec
